import Mathlib

/-!
Verification of the GitHub-Manager repository's assignment arbitration,
style profiling, retry, and webhook dispatch logic, via a shallow embedding
of the Python source (src/issue_manager.py, src/ai_service.py,
src/pr_manager.py, src/webhook_handler.py, src/github_client.py) in Lean.

External services (GitHub API mutations, the AI backend, email) are
modelled as an explicit effect trace; results of fallible external calls
(assign success, AI response) are parameters of the embedded functions.
-/

namespace GitHubManager

/-- A GitHub issue comment as used by the handlers: author login, body,
and creation timestamp (modelled as a natural number; only its order
matters). -/
structure Comment where
  login : String
  body : String
  created_at : Nat
deriving Repr, DecidableEq

/-- The issue state visible to the handlers: number, title, current
assignee logins, and the comment list that `get_issue_comments` returns. -/
structure IssueState where
  number : Nat
  title : String
  assignees : List String
  comments : List Comment
deriving Repr, DecidableEq

/-- The pull-request state visible to the handlers. -/
structure PRState where
  number : Nat
  title : String
deriving Repr, DecidableEq

/-- Outbound calls made through the GitHub client, the AI service and the
email service, recorded as an effect trace. -/
inductive Effect where
  | getRepo (name : String)
  | getIssue (number : Nat)
  | getPR (number : Nat)
  | fetchComments (issueNumber : Nat)
  | assign (issueNumber : Nat) (user : String)
  | postComment (issueNumber : Nat) (text : String)
  | notifyAssignment (issueNumber : Nat) (user : String)
  | notifyPR (prNumber : Nat)
  | generate (prompt : String)
deriving Repr, DecidableEq

/-- Effects that mutate external state or invoke the generator; the
remaining effects are read-only API calls. -/
def Effect.isSideEffect : Effect → Bool
  | .assign _ _ => true
  | .postComment _ _ => true
  | .notifyAssignment _ _ => true
  | .notifyPR _ => true
  | .generate _ => true
  | _ => false

/-- Python `s.endswith(suffix)`. -/
def strEndsWith (s suffix : String) : Bool :=
  suffix.data.isSuffixOf s.data

namespace IssueManager

/-- Model of `GitHubClient.get_user_comment_count`: number of comments on the issue
whose author login equals `username`. -/
def get_user_comment_count (issue : IssueState) (username : String) : Nat :=
  (issue.comments.filter (fun c => c.login == username)).length

/-- Python dict assignment `d[k] = v`: if the key is present its value is
replaced in place (insertion position kept), otherwise the pair is
appended. -/
def dictInsert (d : List (String × Nat × Nat)) (k : String) (v : Nat × Nat) :
    List (String × Nat × Nat) :=
  if d.any (fun e => e.1 == k) then
    d.map (fun e => if e.1 == k then (k, v) else e)
  else d ++ [(k, v)]

/-- The `candidate_scores` dict of `analyze_assignment_candidates`: for each
`(username, request_comment)` pair, in order, store
`(comment_count, request_time)` under `username` (later pairs for the same
username overwrite the stored value, as Python dict assignment does). -/
def candidate_scores (issue : IssueState) (reqs : List (String × Comment)) :
    List (String × Nat × Nat) :=
  reqs.foldl
    (fun d r => dictInsert d r.1 (get_user_comment_count issue r.1, r.2.created_at)) []

/-- The sort key comparison of `analyze_assignment_candidates`: entry `a`
sorts strictly before entry `b` under the key
`(-comment_count, request_time)` (comment count descending, then request
time ascending). -/
def keyLt (a b : String × Nat × Nat) : Bool :=
  b.2.1 < a.2.1 || (a.2.1 == b.2.1 && a.2.2 < b.2.2)

/-- Model of `sorted(...)[0]` for a stable sort: the leftmost element that is
minimal for the (strict) key order. -/
def selectSorted0 : List (String × Nat × Nat) → Option (String × Nat × Nat)
  | [] => none
  | x :: xs => some (xs.foldl (fun best e => if keyLt e best then e else best) x)

/-- Model of `IssueManager.analyze_assignment_candidates`: build the scores dict and
return the username of the first entry of the list sorted by
`(-comment_count, request_time)`; `None` on empty input. -/
def analyze_assignment_candidates (issue : IssueState)
    (reqs : List (String × Comment)) : Option String :=
  if reqs.isEmpty then none
  else (selectSorted0 (candidate_scores issue reqs)).map (fun e => e.1)

/-- Model of `IssueManager.generate_assignment_confirmation`. -/
def generate_assignment_confirmation (username : String) : String :=
  "@" ++ username ++ " Thank you for your interest! " ++
  "I\x27ve assigned this issue to you. " ++
  "Feel free to ask any questions if you need clarification. " ++
  "Looking forward to your contribution! 🚀"

/-- Model of `IssueManager.generate_decline_message`. -/
def generate_decline_message (username assigned_to : String) : String :=
  "@" ++ username ++ " Thank you so much for your interest in working on this issue! " ++
  "I really appreciate your willingness to contribute. " ++
  "However, this issue has been assigned to @" ++ assigned_to ++
  " based on their engagement. " ++
  "Please feel free to check out other open issues where you can contribute. " ++
  "Your participation in this project is valued! 🙏"

/-- Model of `IssueManager.handle_assignment_requests`, with the assignment-request
predicate `isReq` (`is_assignment_request`) and the outcome of the
`assign_issue` call (`assignOk`) as parameters. Returns the boolean result
together with the trace of outbound calls: the initial
`get_issue_comments` fetch, one further fetch per request entry from
`get_user_comment_count` inside `analyze_assignment_candidates`, then the
assign call and, on success, the confirmation comment, the decline
comments and the owner notification. -/
def handle_assignment_requests (isReq : String → Bool) (assignOk : Bool)
    (issue : IssueState) : Bool × List Effect :=
  if !issue.assignees.isEmpty then (false, [])
  else
    let comments := issue.comments
    let fetchEff : List Effect := [.fetchComments issue.number]
    let assignment_requests :=
      (comments.filter (fun c => isReq c.body)).map (fun c => (c.login, c))
    if assignment_requests.isEmpty then (false, fetchEff)
    else
      let countEffs : List Effect :=
        assignment_requests.map (fun _ => .fetchComments issue.number)
      match analyze_assignment_candidates issue assignment_requests with
      | none => (false, fetchEff ++ countEffs)
      | some selected =>
        if selected == "" then (false, fetchEff ++ countEffs)
        else
          let effs1 := fetchEff ++ countEffs ++ [Effect.assign issue.number selected]
          if !assignOk then (false, effs1)
          else
            let confirmEff : List Effect :=
              [.postComment issue.number (generate_assignment_confirmation selected)]
            let declineEffs : List Effect :=
              (assignment_requests.filter (fun r => r.1 != selected)).map
                (fun r => .postComment issue.number
                  (generate_decline_message r.1 selected))
            let notifyEff : List Effect := [.notifyAssignment issue.number selected]
            (true, effs1 ++ confirmEff ++ declineEffs ++ notifyEff)

/-- Model of `IssueManager.handle_comment`: skip bot comments, route assignment
requests to `handle_assignment_requests`, otherwise call the generator
(`aiResp` is the AI service result) and post its response when truthy. -/
def handle_comment (isReq : String → Bool) (assignOk : Bool)
    (aiResp : Option String) (issue : IssueState) (comment : Comment) :
    Bool × List Effect :=
  if strEndsWith comment.login "[bot]" then (false, [])
  else if isReq comment.body then handle_assignment_requests isReq assignOk issue
  else
    let genEff : List Effect := [.generate comment.body]
    match aiResp with
    | some r => if r == "" then (false, genEff)
                else (true, genEff ++ [.postComment issue.number r])
    | none => (false, genEff)

end IssueManager

namespace AI

/-- ASCII lowercasing of one character; Python `str.lower()` restricted to
ASCII, which covers every string the handlers compare after lowercasing. -/
def lowerChar (c : Char) : Char :=
  if c.toNat ≥ 65 && c.toNat ≤ 90 then Char.ofNat (c.toNat + 32) else c

/-- Python `s.lower()` (ASCII). -/
def lowerStr (s : String) : String :=
  ⟨s.data.map lowerChar⟩

/-- Python substring test `needle in hay` on character lists. -/
def containsChars (needle : List Char) : List Char → Bool
  | [] => needle.isEmpty
  | c :: rest => needle.isPrefixOf (c :: rest) || containsChars needle rest

/-- Python substring test `needle in hay` on strings. -/
def strContains (hay needle : String) : Bool :=
  containsChars needle.data hay.data

/-- Python `sum(1 for indicator in indicators if indicator in comment.lower())`. -/
def indicatorHits (indicators : List String) (comment : String) : Nat :=
  (indicators.filter (fun ind => strContains (lowerStr comment) ind)).length

/-- Total indicator hits across all comments. -/
def totalHits (indicators : List String) (comments : List String) : Nat :=
  (comments.map (indicatorHits indicators)).sum

def formal_indicators : List String := ["please", "thank you", "would", "could", "kindly"]

def casual_indicators : List String := ["hey", "yeah", "cool", "awesome", "lol", "btw"]

def positive_indicators : List String :=
  ["thanks", "great", "awesome", "excellent", "good", "appreciate"]

def question_indicators : List String := ["?", "how", "what", "why", "when", "where"]

/-- Python `comment.count('.') + comment.count('!') + comment.count('?')`. -/
def terminatorCount (comment : String) : Nat :=
  (comment.data.filter (fun c => c == '.' || c == '!' || c == '?')).length

/-- Membership of a code point in the emoji ranges of the `emoji_pattern`
regex (emoticons, symbols and pictographs, transport and map symbols,
flags). -/
def isEmojiChar (c : Char) : Bool :=
  (0x1F600 ≤ c.toNat && c.toNat ≤ 0x1F64F) ||
  (0x1F300 ≤ c.toNat && c.toNat ≤ 0x1F5FF) ||
  (0x1F680 ≤ c.toNat && c.toNat ≤ 0x1F6FF) ||
  (0x1F1E0 ≤ c.toNat && c.toNat ≤ 0x1F1FF)

/-- Round-half-to-even to an integer, as Python `round` does (the Python
version operates on binary doubles; on the rationals arising here the
results coincide for the inputs we evaluate). -/
def roundHalfEven (q : ℚ) : ℤ :=
  let f := ⌊q⌋
  if q - f < 1 / 2 then f
  else if q - f > 1 / 2 then f + 1
  else if f % 2 = 0 then f else f + 1

/-- Python `round(q, 1)` on rationals. -/
def round1 (q : ℚ) : ℚ := (roundHalfEven (10 * q) : ℚ) / 10

/-- The `UserStyleProfile` dictionary returned by
`UserAnalyzer.analyze_writing_style`. -/
structure UserStyleProfile where
  avg_length : Nat
  tone : String
  formality : String
  uses_emojis : Bool
  avg_sentences : ℚ
deriving Repr, DecidableEq

/-- Model of `UserAnalyzer.analyze_writing_style`. Numeric modelling: Python
computes averages in binary floating point and `int(avg_length)`
truncates toward zero, which on nonnegative values is natural-number
division; the float comparisons with `1.5 * count` and `0.5 * len` are
exact for integer operands (dyadic factors), so they are rendered as the
integer comparisons `2 * a > 3 * b` and `2 * a > n`. -/
def analyze_writing_style (user_comments : List String) : UserStyleProfile :=
  if user_comments.isEmpty then
    { avg_length := 0, tone := "neutral", formality := "neutral",
      uses_emojis := false, avg_sentences := 0 }
  else
    let n := user_comments.length
    let total_length := (user_comments.map String.length).sum
    let avg_length := total_length / n
    let uses_emojis := user_comments.any (fun c => c.data.any isEmojiChar)
    let total_sentences := (user_comments.map terminatorCount).sum
    let avg_sentences : ℚ :=
      if total_sentences > 0 then (total_sentences : ℚ) / (n : ℚ) else 1
    let formal_count := totalHits formal_indicators user_comments
    let casual_count := totalHits casual_indicators user_comments
    let formality :=
      if 2 * formal_count > 3 * casual_count then "formal"
      else if 2 * casual_count > 3 * formal_count then "casual"
      else "neutral"
    let positive_count := totalHits positive_indicators user_comments
    let question_count := totalHits question_indicators user_comments
    let tone :=
      if 2 * positive_count > n then "positive"
      else if 2 * question_count > n then "inquisitive"
      else "neutral"
    { avg_length := avg_length, tone := tone, formality := formality,
      uses_emojis := uses_emojis, avg_sentences := round1 avg_sentences }

def veryBriefLine : String := "- Keep response very brief (1-2 sentences)\n"

def conciseLine : String := "- Keep response concise (2-3 sentences)\n"

def detailedLine : String := "- Provide detailed response (3-5 sentences)\n"

/-- Model of `UserAnalyzer.build_personalized_context`. -/
def build_personalized_context (user_style : UserStyleProfile)
    (base_context : String) : String :=
  let personalization := "\n\nPersonalization Guidelines:\n"
  let personalization := personalization ++
    (if user_style.avg_length < 100 then veryBriefLine
     else if user_style.avg_length < 300 then conciseLine
     else detailedLine)
  let personalization := personalization ++
    (if user_style.formality == "formal" then "- Use formal, professional language\n"
     else if user_style.formality == "casual" then "- Use friendly, casual language\n"
     else "- Use balanced, professional yet friendly language\n")
  let personalization := personalization ++
    (if user_style.tone == "positive" then "- Match their positive, enthusiastic tone\n"
     else if user_style.tone == "inquisitive" then
       "- Be thorough and educational in your response\n"
     else "")
  let personalization := personalization ++
    (if user_style.uses_emojis then "- Feel free to use appropriate emojis\n"
     else "- Avoid using emojis\n")
  base_context ++ personalization

/-- The formality, tone and emoji guidance lines of
`build_personalized_context` (everything it appends after the length
line), used to state how the builder's output decomposes. -/
def postLengthLines (user_style : UserStyleProfile) : String :=
  (if user_style.formality == "formal" then "- Use formal, professional language\n"
   else if user_style.formality == "casual" then "- Use friendly, casual language\n"
   else "- Use balanced, professional yet friendly language\n") ++
  ((if user_style.tone == "positive" then "- Match their positive, enthusiastic tone\n"
    else if user_style.tone == "inquisitive" then
      "- Be thorough and educational in your response\n"
    else "") ++
   (if user_style.uses_emojis then "- Feel free to use appropriate emojis\n"
    else "- Avoid using emojis\n"))

/-- Events of one `AIService.generate_response` run: provider attempts and
backoff sleeps (in seconds). -/
inductive GenEvent where
  | attempt (n : Nat)
  | sleep (secs : Nat)
deriving Repr, DecidableEq

/-- Python truthiness of the provider result: `None` and the empty string
are falsy. -/
def genOk : Option String → Bool
  | some s => !(s == "")
  | none => false

/-- The retry loop of `AIService.generate_response`: `backend n` is the
provider result on attempt `n` (`none` models both an exception and a
`None` return); the fuel equals the remaining loop iterations. -/
def genAux (backend : Nat → Option String) (max_retries attempt : Nat) :
    Nat → Option String × List GenEvent
  | 0 => (none, [])
  | fuel + 1 =>
    let r := backend attempt
    if genOk r then (r, [.attempt attempt])
    else if attempt + 1 < max_retries then
      let rest := genAux backend max_retries (attempt + 1) fuel
      (rest.1, .attempt attempt :: .sleep (2 ^ attempt) :: rest.2)
    else (none, [.attempt attempt])

/-- Model of `AIService.generate_response` with its retry/backoff policy
(`for attempt in range(max_retries)`, sleeping `2 ** attempt` seconds
between attempts). Returns the result and the event trace. -/
def generate_response (backend : Nat → Option String) (max_retries : Nat) :
    Option String × List GenEvent :=
  genAux backend max_retries 0 max_retries

/-- The number of provider attempts in a trace. -/
def numAttempts (tr : List GenEvent) : Nat :=
  (tr.filter (fun e => match e with | .attempt _ => true | _ => false)).length

/-- The backoff sleep durations of a trace, in order. -/
def sleepsOf (tr : List GenEvent) : List Nat :=
  tr.filterMap (fun e => match e with | .sleep s => some s | _ => none)

end AI

namespace PRManager

def question_words : List String :=
  ["what", "why", "how", "when", "where", "who", "which", "can", "could", "would", "should"]

/-- Splitting into maximal whitespace-free words, as Python `split()` with
no arguments does (leading and trailing whitespace ignored); the
accumulator holds the current word reversed. -/
def splitWsAux : List Char → List Char → List (List Char)
  | acc, [] => if acc.isEmpty then [] else [acc.reverse]
  | acc, c :: rest =>
    if c.isWhitespace then
      if acc.isEmpty then splitWsAux [] rest
      else acc.reverse :: splitWsAux [] rest
    else splitWsAux (c :: acc) rest

/-- Python `comment_text.strip().split()[0] if comment_text.strip() else ''`:
the first whitespace-separated word. -/
def firstWord (s : String) : String :=
  match splitWsAux [] s.data with
  | [] => ""
  | w :: _ => ⟨w⟩

/-- Model of `PRManager.is_question`. -/
def is_question (comment_text : String) : Bool :=
  if comment_text.data.contains '?' then true
  else question_words.contains (AI.lowerStr (firstWord comment_text))

/-- Model of `PRManager.handle_comment`, with the AI result (`aiResp`) and the
outcome of `add_comment` (`commentOk`) as parameters. -/
def handle_comment (aiResp : Option String) (commentOk : Bool)
    (pr : PRState) (comment : Comment) : Bool × List Effect :=
  if strEndsWith comment.login "[bot]" then (false, [])
  else
    let genEff : List Effect := [.generate comment.body]
    match aiResp with
    | none => (false, genEff)
    | some r =>
      if r == "" then (false, genEff)
      else
        let postEff : List Effect := [.postComment pr.number r]
        if commentOk then
          if is_question comment.body then
            (true, genEff ++ postEff ++ [.notifyPR pr.number])
          else (true, genEff ++ postEff)
        else (false, genEff ++ postEff)

end PRManager

namespace WebhookHandler

/-- The `comment` object of an `issue_comment` webhook payload. -/
structure CommentPayload where
  body : String
  login : String
  created_at : Nat
deriving Repr, DecidableEq

/-- The fields of an `issue_comment` webhook payload that
`WebhookHandler.handle_issue_comment` reads: the action, the repository
full name, the issue number, whether the issue object carries a
`pull_request` key, and the embedded comment object. -/
structure IssueCommentPayload where
  action : String
  repoFullName : Option String
  issueNumber : Option Nat
  hasPullRequestKey : Bool
  comment : CommentPayload
deriving Repr, DecidableEq

/-- Model of `WebhookHandler.handle_issue_comment`. External lookups are
parameters: `repoFound` is whether `get_repository` succeeds,
`issueLookup` the result of `get_issue`, `prLookup` the result of
`get_pull_request`; on the issue path the handler fetches the issue
comment list and processes its last element, on the PR path it builds a
mock comment from the payload fields. -/
def handle_issue_comment (isReq : String → Bool) (assignOk : Bool)
    (aiResp : Option String) (commentOk : Bool)
    (repoFound : Bool) (issueLookup : Option IssueState)
    (prLookup : Option PRState) (payload : IssueCommentPayload) :
    Bool × List Effect :=
  if !(payload.action == "created") then (false, [])
  else
    match payload.repoFullName with
    | none => (false, [])
    | some name =>
      if !repoFound then (false, [.getRepo name])
      else
        match payload.issueNumber with
        | none => (false, [.getRepo name])
        | some num =>
          if num == 0 then (false, [.getRepo name])
          else if payload.hasPullRequestKey then
            match prLookup with
            | none => (false, [.getRepo name, .getPR num])
            | some pr =>
              let mock : Comment :=
                ⟨payload.comment.login, payload.comment.body, payload.comment.created_at⟩
              let r := PRManager.handle_comment aiResp commentOk pr mock
              (r.1, [.getRepo name, .getPR num] ++ r.2)
          else
            match issueLookup with
            | none => (false, [.getRepo name, .getIssue num])
            | some issue =>
              let readEffs : List Effect :=
                [.getRepo name, .getIssue num, .fetchComments num]
              match issue.comments.getLast? with
              | none => (false, readEffs)
              | some newComment =>
                let r := IssueManager.handle_comment isReq assignOk aiResp issue newComment
                (r.1, readEffs ++ r.2)

end WebhookHandler

/-! ### Lemmas about the arbitration sort key and the stable-sort head -/

namespace IssueManager

theorem keyLt_iff (a b : String × Nat × Nat) :
    keyLt a b = true ↔ b.2.1 < a.2.1 ∨ (a.2.1 = b.2.1 ∧ a.2.2 < b.2.2) := by
  simp [keyLt, Bool.or_eq_true, Bool.and_eq_true, decide_eq_true_eq, beq_iff_eq]

theorem keyLt_irrefl (a : String × Nat × Nat) : ¬ keyLt a a = true := by
  simp [keyLt_iff]

theorem keyLt_trans {a b c : String × Nat × Nat}
    (h1 : keyLt a b = true) (h2 : keyLt b c = true) : keyLt a c = true := by
  rw [keyLt_iff] at h1 h2 ⊢
  omega

theorem keyLt_resolve {e x m : String × Nat × Nat}
    (h1 : ¬ keyLt e x = true) (h2 : keyLt e m = true) : keyLt x m = true := by
  rw [keyLt_iff] at h1 h2 ⊢
  omega

theorem keyLt_antisymm_eq {a b : String × Nat × Nat}
    (h1 : ¬ keyLt a b = true) (h2 : ¬ keyLt b a = true) : a.2 = b.2 := by
  rw [keyLt_iff] at h1 h2
  have : a.2.1 = b.2.1 ∧ a.2.2 = b.2.2 := by omega
  exact Prod.ext this.1 this.2

theorem keyLt_of_ne {a b : String × Nat × Nat}
    (h1 : ¬ keyLt a b = true) (h2 : a.2 ≠ b.2) : keyLt b a = true := by
  rw [keyLt_iff] at h1 ⊢
  have h3 : ¬(a.2.1 = b.2.1 ∧ a.2.2 = b.2.2) := fun hc => h2 (Prod.ext hc.1 hc.2)
  omega

/-- The fold of `selectSorted0` returns a member of `x :: xs` that no
member of `x :: xs` strictly precedes under the sort key: exactly the
head of a stable sort. -/
theorem foldlMin_spec (xs : List (String × Nat × Nat)) : ∀ x : String × Nat × Nat,
    (xs.foldl (fun best e => if keyLt e best then e else best) x) ∈ x :: xs ∧
    ∀ y ∈ x :: xs,
      ¬ keyLt y (xs.foldl (fun best e => if keyLt e best then e else best) x) = true := by
  induction xs with
  | nil =>
    intro x
    refine ⟨by simp, ?_⟩
    intro y hy
    simp only [List.foldl_nil]
    rcases List.mem_singleton.mp hy with rfl
    exact keyLt_irrefl y
  | cons e xs ih =>
    intro x
    simp only [List.foldl_cons]
    by_cases h : keyLt e x = true
    · rw [if_pos h]
      obtain ⟨hmem, hmin⟩ := ih e
      refine ⟨?_, ?_⟩
      · rcases List.mem_cons.mp hmem with h1 | h1
        · rw [h1]
          exact List.mem_cons_of_mem _ (List.mem_cons_self _ _)
        · exact List.mem_cons_of_mem _ (List.mem_cons_of_mem _ h1)
      · intro y hy
        rcases List.mem_cons.mp hy with rfl | hy2
        · intro hxm
          exact hmin e (List.mem_cons_self _ _) (keyLt_trans h hxm)
        · exact hmin y hy2
    · rw [if_neg h]
      obtain ⟨hmem, hmin⟩ := ih x
      refine ⟨?_, ?_⟩
      · rcases List.mem_cons.mp hmem with h1 | h1
        · rw [h1]
          exact List.mem_cons_self _ _
        · exact List.mem_cons_of_mem _ (List.mem_cons_of_mem _ h1)
      · intro y hy
        rcases List.mem_cons.mp hy with rfl | hy2
        · exact hmin y (List.mem_cons_self _ _)
        · rcases List.mem_cons.mp hy2 with rfl | hy3
          · intro hym
            exact hmin x (List.mem_cons_self _ _) (keyLt_resolve h hym)
          · exact hmin y (List.mem_cons_of_mem _ hy3)

theorem selectSorted0_spec {l : List (String × Nat × Nat)} (h : l ≠ []) :
    ∃ m, selectSorted0 l = some m ∧ m ∈ l ∧ ∀ y ∈ l, ¬ keyLt y m = true := by
  match l, h with
  | x :: xs, _ =>
    obtain ⟨hmem, hmin⟩ := foldlMin_spec xs x
    exact ⟨_, rfl, hmem, hmin⟩

/-- Membership in a Python-dict insertion: the new entry has the inserted
key, every other entry was already present. -/
theorem dictInsert_mem {d : List (String × Nat × Nat)} {k : String} {v : Nat × Nat}
    {x : String × Nat × Nat} (hx : x ∈ dictInsert d k v) : x ∈ d ∨ x.1 = k := by
  unfold dictInsert at hx
  split at hx
  · rcases List.mem_map.mp hx with ⟨a, ha, hax⟩
    by_cases hk : (a.1 == k) = true
    · rw [if_pos hk] at hax
      right
      rw [← hax]
    · rw [if_neg hk] at hax
      left
      exact hax ▸ ha
  · rcases List.mem_append.mp hx with h1 | h1
    · exact Or.inl h1
    · right
      rcases List.mem_singleton.mp h1 with rfl
      rfl

/-- Any key found in the `candidate_scores` dict is one of the request
usernames. -/
theorem candidate_scores_keys {issue : IssueState} {reqs : List (String × Comment)}
    {x : String × Nat × Nat} (hx : x ∈ candidate_scores issue reqs) :
    ∃ r ∈ reqs, x.1 = r.1 := by
  unfold candidate_scores at hx
  suffices h : ∀ (rs : List (String × Comment)) (acc : List (String × Nat × Nat)),
      x ∈ rs.foldl (fun d r =>
        dictInsert d r.1 (get_user_comment_count issue r.1, r.2.created_at)) acc →
      x ∈ acc ∨ ∃ r ∈ rs, x.1 = r.1 by
    rcases h reqs [] hx with h1 | h1
    · simp at h1
    · exact h1
  intro rs
  induction rs with
  | nil => intro acc hacc; exact Or.inl hacc
  | cons r rs ih =>
    intro acc hacc
    rcases ih _ hacc with h1 | h1
    · rcases dictInsert_mem h1 with h2 | h2
      · exact Or.inl h2
      · exact Or.inr ⟨r, List.mem_cons_self _ _, h2⟩
    · rcases h1 with ⟨r2, hr2, hx2⟩
      exact Or.inr ⟨r2, List.mem_cons_of_mem _ hr2, hx2⟩

/-- A Python dict built by successive insertions is nonempty as soon as one
insertion happened. -/
theorem dictInsert_ne_nil (d : List (String × Nat × Nat)) (k : String) (v : Nat × Nat) :
    dictInsert d k v ≠ [] := by
  unfold dictInsert
  split
  · intro hcon
    rcases d with _ | ⟨a, d⟩
    · simp at *
    · simp at hcon
  · simp

theorem foldl_dictInsert_ne_nil (issue : IssueState) (rs : List (String × Comment)) :
    ∀ acc : List (String × Nat × Nat), acc ≠ [] →
      rs.foldl (fun d r =>
        dictInsert d r.1 (get_user_comment_count issue r.1, r.2.created_at)) acc ≠ [] := by
  induction rs with
  | nil => intro acc h; exact h
  | cons r rs ih =>
    intro acc _
    exact ih _ (dictInsert_ne_nil acc r.1 _)

theorem candidate_scores_ne_nil (issue : IssueState) {reqs : List (String × Comment)}
    (h : reqs ≠ []) : candidate_scores issue reqs ≠ [] := by
  unfold candidate_scores
  match reqs, h with
  | r :: rs, _ =>
    rw [List.foldl_cons]
    exact foldl_dictInsert_ne_nil issue rs _ (dictInsert_ne_nil [] r.1 _)

/-- When the key is absent, Python dict assignment appends the entry. -/
theorem dictInsert_of_not_mem {d : List (String × Nat × Nat)} {k : String}
    (v : Nat × Nat) (h : ∀ a ∈ d, a.1 ≠ k) : dictInsert d k v = d ++ [(k, v)] := by
  unfold dictInsert
  rw [if_neg]
  intro hc
  rcases List.any_eq_true.mp hc with ⟨a, ha, hak⟩
  exact h a ha (beq_iff_eq.mp hak)

/-- The score entry of a request list with pairwise-distinct usernames: the
dict degenerates to a map over the requests. -/
theorem candidate_scores_eq_map (issue : IssueState) {reqs : List (String × Comment)}
    (h : (reqs.map Prod.fst).Nodup) :
    candidate_scores issue reqs =
      reqs.map (fun r => (r.1, get_user_comment_count issue r.1, r.2.created_at)) := by
  unfold candidate_scores
  suffices haux : ∀ (rs : List (String × Comment)) (acc : List (String × Nat × Nat)),
      (∀ r ∈ rs, ∀ a ∈ acc, a.1 ≠ r.1) → (rs.map Prod.fst).Nodup →
      rs.foldl (fun d r =>
        dictInsert d r.1 (get_user_comment_count issue r.1, r.2.created_at)) acc =
      acc ++ rs.map (fun r => (r.1, get_user_comment_count issue r.1, r.2.created_at)) by
    have := haux reqs [] (by simp) h
    simpa using this
  intro rs
  induction rs with
  | nil => intro acc _ _; simp
  | cons r rs ih =>
    intro acc hacc hnd
    rw [List.foldl_cons]
    rw [dictInsert_of_not_mem _ (fun a ha => hacc r (List.mem_cons_self _ _) a ha)]
    rw [List.map_cons, List.nodup_cons] at hnd
    have hstep : ∀ r2 ∈ rs, ∀ a ∈ acc ++ [(r.1, get_user_comment_count issue r.1,
        r.2.created_at)], a.1 ≠ r2.1 := by
      intro r2 hr2 a ha
      rcases List.mem_append.mp ha with h1 | h1
      · exact hacc r2 (List.mem_cons_of_mem _ hr2) a h1
      · rcases List.mem_singleton.mp h1 with rfl
        intro hc
        exact hnd.1 (hc ▸ List.mem_map_of_mem Prod.fst hr2)
    rw [ih _ hstep hnd.2]
    simp

/-- If the request list is nonempty, analysis selects some username drawn
from the requests. -/
theorem analyze_eq_some (issue : IssueState) {reqs : List (String × Comment)}
    (h : reqs ≠ []) :
    ∃ m, selectSorted0 (candidate_scores issue reqs) = some m ∧
      m ∈ candidate_scores issue reqs ∧
      (∀ y ∈ candidate_scores issue reqs, ¬ keyLt y m = true) ∧
      analyze_assignment_candidates issue reqs = some m.1 := by
  obtain ⟨m, hsel, hmem, hmin⟩ := selectSorted0_spec (candidate_scores_ne_nil issue h)
  refine ⟨m, hsel, hmem, hmin, ?_⟩
  unfold analyze_assignment_candidates
  rw [if_neg (by simpa [List.isEmpty_iff] using h), hsel]
  rfl

end IssueManager

/-! ### Claim theorems -/

open IssueManager in
/-- C1. For every non-empty list of assignment candidates with
pairwise-distinct usernames (a set of candidates) and pairwise-distinct
`(comment_count, request_time)` pairs, `analyze_assignment_candidates`
returns the username of the candidate whose comment count is maximal,
ties broken by the minimal request timestamp (every other candidate has a
strictly smaller count, or an equal count and a strictly later request
time), and the selection is invariant under every reordering of the input
list. -/
theorem arbitration_selects_max_count_min_time (issue : IssueState)
    (reqs : List (String × Comment)) (hne : reqs ≠ [])
    (husers : (reqs.map Prod.fst).Nodup)
    (hkeys : (reqs.map (fun r =>
      (get_user_comment_count issue r.1, r.2.created_at))).Nodup) :
    ∃ w ∈ reqs,
      analyze_assignment_candidates issue reqs = some w.1 ∧
      (∀ r ∈ reqs, r ≠ w →
        get_user_comment_count issue r.1 < get_user_comment_count issue w.1 ∨
        (get_user_comment_count issue r.1 = get_user_comment_count issue w.1 ∧
          w.2.created_at < r.2.created_at)) ∧
      (∀ reqs₂ : List (String × Comment), reqs₂.Perm reqs →
        analyze_assignment_candidates issue reqs₂ =
          analyze_assignment_candidates issue reqs) := by
  set triple := fun r : String × Comment =>
    (r.1, get_user_comment_count issue r.1, r.2.created_at) with htriple
  have hkeyfn : ∀ r : String × Comment,
      (triple r).2 = (get_user_comment_count issue r.1, r.2.created_at) := fun r => rfl
  have hscores := candidate_scores_eq_map issue husers
  obtain ⟨m, hsel, hmem, hmin, hana⟩ := analyze_eq_some issue hne
  rw [hscores] at hmem
  obtain ⟨w, hw, hwm⟩ := List.mem_map.mp hmem
  have hinj := List.inj_on_of_nodup_map hkeys
  refine ⟨w, hw, by rw [hana, ← hwm], ?_, ?_⟩
  · intro r hr hrw
    have hy : triple r ∈ candidate_scores issue reqs := by
      rw [hscores]
      exact List.mem_map_of_mem triple hr
    have hylt := hmin _ hy
    have hkne : (triple r).2 ≠ (triple w).2 := by
      rw [hkeyfn, hkeyfn]
      intro hc
      exact hrw (hinj hr hw hc)
    rw [← hwm] at hylt
    have := keyLt_of_ne hylt hkne
    rw [keyLt_iff] at this
    simp only [htriple] at this
    rcases this with h1 | h1
    · exact Or.inl h1
    · exact Or.inr ⟨h1.1.symm, h1.2⟩
  · intro reqs₂ hperm
    have hne₂ : reqs₂ ≠ [] := by
      intro hc
      rw [hc] at hperm
      exact hne (hperm.symm.eq_nil)
    have husers₂ : (reqs₂.map Prod.fst).Nodup :=
      (hperm.map Prod.fst).nodup_iff.mpr husers
    have hscores₂ := candidate_scores_eq_map issue husers₂
    obtain ⟨m₂, hsel₂, hmem₂, hmin₂, hana₂⟩ := analyze_eq_some issue hne₂
    rw [hscores₂] at hmem₂
    obtain ⟨w₂, hw₂, hwm₂⟩ := List.mem_map.mp hmem₂
    have hw₂' : w₂ ∈ reqs := hperm.mem_iff.mp hw₂
    have hm₂mem : m₂ ∈ candidate_scores issue reqs := by
      rw [hscores]
      rw [← hwm₂]
      exact List.mem_map_of_mem triple hw₂'
    have hmmem₂ : m ∈ candidate_scores issue reqs₂ := by
      rw [hscores₂]
      rw [← hwm]
      exact List.mem_map_of_mem triple (hperm.mem_iff.mpr hw)
    have h12 : ¬ keyLt m₂ m = true := hmin _ hm₂mem
    have h21 : ¬ keyLt m m₂ = true := hmin₂ _ hmmem₂
    have hkeq : m₂.2 = m.2 := keyLt_antisymm_eq h12 h21
    have hweq : w₂ = w := by
      apply hinj hw₂' hw
      rw [← hwm, ← hwm₂] at hkeq
      rw [hkeyfn, hkeyfn] at hkeq
      exact hkeq
    rw [hana, hana₂, ← hwm, ← hwm₂, hweq]

open IssueManager in
/-- Witness for C1: on an issue where bob has two comments and alice one,
with both requesting assignment, the arbitration theorem yields bob. -/
theorem arbitration_selects_max_count_min_time_witness :
    analyze_assignment_candidates
      ⟨1, "t", [], [⟨"alice", "assign me", 3⟩, ⟨"bob", "assign me", 4⟩, ⟨"bob", "ok", 6⟩]⟩
      [("alice", ⟨"alice", "assign me", 3⟩), ("bob", ⟨"bob", "assign me", 4⟩)] =
      some "bob" := by
  obtain ⟨w, hw, hana, hbest, -⟩ :=
    arbitration_selects_max_count_min_time
      ⟨1, "t", [], [⟨"alice", "assign me", 3⟩, ⟨"bob", "assign me", 4⟩, ⟨"bob", "ok", 6⟩]⟩
      [("alice", ⟨"alice", "assign me", 3⟩), ("bob", ⟨"bob", "assign me", 4⟩)]
      (by decide) (by decide) (by decide)
  rw [hana]
  congr 1
  rcases List.mem_cons.mp hw with rfl | hw2
  · exact absurd
      (hbest ("bob", ⟨"bob", "assign me", 4⟩) (by decide) (by decide)) (by decide)
  · rcases List.mem_cons.mp hw2 with rfl | hw3
    · rfl
    · simp at hw3

open IssueManager in
/-- C2 (code bug evidence). When alice posts matching requests at times 1
and 10 and bob posts one at time 5, with both tied at two comments total,
the dict overwrite in `analyze_assignment_candidates` records alice's
**last** matching comment time (10), so bob wins the tie — although
alice's earliest matching request (time 1) precedes bob's, which is what
the claim, the spec, and the method's own docstring ("if tied, user who
requested assignment first") require. -/
theorem arbitration_records_last_request_time :
    candidate_scores
      ⟨7, "t", [], [⟨"alice", "assign me", 1⟩, ⟨"bob", "hello there", 2⟩,
        ⟨"bob", "assign me", 5⟩, ⟨"alice", "assign me", 10⟩]⟩
      [("alice", ⟨"alice", "assign me", 1⟩), ("bob", ⟨"bob", "assign me", 5⟩),
        ("alice", ⟨"alice", "assign me", 10⟩)] =
      [("alice", 2, 10), ("bob", 2, 5)] ∧
    analyze_assignment_candidates
      ⟨7, "t", [], [⟨"alice", "assign me", 1⟩, ⟨"bob", "hello there", 2⟩,
        ⟨"bob", "assign me", 5⟩, ⟨"alice", "assign me", 10⟩]⟩
      [("alice", ⟨"alice", "assign me", 1⟩), ("bob", ⟨"bob", "assign me", 5⟩),
        ("alice", ⟨"alice", "assign me", 10⟩)] = some "bob" := by
  constructor
  · decide
  · decide

open IssueManager in
/-- C4. On an issue whose assignee list is non-empty,
`handle_assignment_requests` reports not handled and issues zero outbound
calls of any kind. -/
theorem assigned_issue_zero_calls (isReq : String → Bool) (assignOk : Bool)
    (issue : IssueState) (h : issue.assignees ≠ []) :
    handle_assignment_requests isReq assignOk issue = (false, []) := by
  have hc : (!issue.assignees.isEmpty) = true := by
    simp [h]
  unfold handle_assignment_requests
  rw [if_pos hc]

open IssueManager in
/-- Witness for C4 at a concrete already-assigned issue. -/
theorem assigned_issue_zero_calls_witness :
    handle_assignment_requests (fun _ => true) true
      ⟨1, "t", ["zoe"], [⟨"alice", "assign me", 3⟩]⟩ = (false, []) :=
  assigned_issue_zero_calls (fun _ => true) true
    ⟨1, "t", ["zoe"], [⟨"alice", "assign me", 3⟩]⟩ (by decide)

/-- C9. A comment whose author login ends in `[bot]` is skipped by both the
issue-comment handler and the PR-comment handler: both report not handled
and issue no outbound call (no comment, no assignment, no generator call,
no notification). -/
theorem bot_comments_skipped (isReq : String → Bool) (assignOk : Bool)
    (aiResp : Option String) (commentOk : Bool) (issue : IssueState)
    (pr : PRState) (comment : Comment)
    (h : strEndsWith comment.login "[bot]" = true) :
    IssueManager.handle_comment isReq assignOk aiResp issue comment = (false, []) ∧
    PRManager.handle_comment aiResp commentOk pr comment = (false, []) := by
  constructor
  · unfold IssueManager.handle_comment
    rw [if_pos h]
  · unfold PRManager.handle_comment
    rw [if_pos h]

/-- Witness for C9 at a concrete bot login. -/
theorem bot_comments_skipped_witness :
    IssueManager.handle_comment (fun _ => true) true (some "hi")
      ⟨1, "t", [], []⟩ ⟨"github-actions[bot]", "assign me", 3⟩ = (false, []) ∧
    PRManager.handle_comment (some "hi") true
      ⟨2, "p"⟩ ⟨"github-actions[bot]", "assign me", 3⟩ = (false, []) :=
  bot_comments_skipped (fun _ => true) true (some "hi") true
    ⟨1, "t", [], []⟩ ⟨2, "p"⟩ ⟨"github-actions[bot]", "assign me", 3⟩ (by decide)

namespace AI

/-- With a backend failing on every attempt, the retry loop returns `none`
and makes one attempt per remaining loop iteration. -/
theorem genAux_allFail (b : Nat → Option String) (hb : ∀ n, genOk (b n) = false)
    (maxR : Nat) : ∀ (fuel attempt : Nat), attempt + fuel = maxR →
    (genAux b maxR attempt fuel).1 = none ∧
    numAttempts (genAux b maxR attempt fuel).2 = fuel := by
  intro fuel
  induction fuel with
  | zero => intro attempt _; exact ⟨rfl, rfl⟩
  | succ f ih =>
    intro attempt hsum
    unfold genAux
    dsimp only
    rw [hb attempt]
    simp only [Bool.false_eq_true, if_false]
    by_cases hlt : attempt + 1 < maxR
    · rw [if_pos hlt]
      obtain ⟨hres, hnum⟩ := ih (attempt + 1) (by omega)
      refine ⟨hres, ?_⟩
      simp only [numAttempts, List.filter_cons] at hnum ⊢
      simp [hnum]
    · rw [if_neg hlt]
      refine ⟨rfl, ?_⟩
      have : f = 0 := by omega
      simp [this, numAttempts]

end AI

open AI in
/-- C5. With the default `max_retries = 3`: a backend failing (error or
empty result) on attempts 0 and 1 and succeeding on attempt 2 makes
`generate_response` return the successful text after exactly two backoff
sleeps of 1 then 2 seconds; and for any backend failing on every attempt
and any retry budget, it returns `none` after exactly `max_retries`
attempts. -/
theorem generator_retry_backoff (b : Nat → Option String) (s : String)
    (h0 : genOk (b 0) = false) (h1 : genOk (b 1) = false)
    (h2 : b 2 = some s) (hs : s ≠ "") :
    (generate_response b 3 =
        (some s, [.attempt 0, .sleep 1, .attempt 1, .sleep 2, .attempt 2]) ∧
      sleepsOf (generate_response b 3).2 = [1, 2]) ∧
    ∀ (b₂ : Nat → Option String) (maxR : Nat), (∀ n, genOk (b₂ n) = false) →
      (generate_response b₂ maxR).1 = none ∧
      numAttempts (generate_response b₂ maxR).2 = maxR := by
  have hok2 : genOk (b 2) = true := by
    rw [h2]
    simpa [genOk] using hs
  have hmain : generate_response b 3 =
      (some s, [.attempt 0, .sleep 1, .attempt 1, .sleep 2, .attempt 2]) := by
    rw [← h2]
    simp [generate_response, genAux, h0, h1, hok2]
  refine ⟨⟨hmain, ?_⟩, ?_⟩
  · rw [hmain]
    rfl
  · intro b₂ maxR hfail
    exact genAux_allFail b₂ hfail maxR maxR 0 (by omega)

open AI in
/-- Witness for C5: a backend failing twice then answering "ok". -/
theorem generator_retry_backoff_witness :
    generate_response (fun n => if n == 2 then some "ok" else none) 3 =
        (some "ok", [.attempt 0, .sleep 1, .attempt 1, .sleep 2, .attempt 2]) ∧
      sleepsOf (generate_response (fun n => if n == 2 then some "ok" else none) 3).2 =
        [1, 2] :=
  (generator_retry_backoff (fun n => if n == 2 then some "ok" else none) "ok"
    (by decide) (by decide) (by decide) (by decide)).1

namespace AI

theorem analyze_formality_eq (comments : List String) (h : comments ≠ []) :
    (analyze_writing_style comments).formality =
      (if 2 * totalHits formal_indicators comments >
          3 * totalHits casual_indicators comments then "formal"
       else if 2 * totalHits casual_indicators comments >
          3 * totalHits formal_indicators comments then "casual"
       else "neutral") := by
  unfold analyze_writing_style
  rw [if_neg (by simpa using h)]

theorem analyze_avg_sentences_eq (comments : List String) (h : comments ≠ []) :
    (analyze_writing_style comments).avg_sentences =
      round1 (if (comments.map terminatorCount).sum > 0
        then ((comments.map terminatorCount).sum : ℚ) / (comments.length : ℚ)
        else 1) := by
  unfold analyze_writing_style
  rw [if_neg (by simpa using h)]

end AI

open AI in
/-- C6 (corrected: the thresholds are strict). For every non-empty comment
list, the profiler labels formality "formal" exactly when the total
formal-phrase hit count strictly exceeds 1.5 times the casual-phrase hit
count (as integers: `2 * formal > 3 * casual`), "casual" in the symmetric
strict case, and "neutral" otherwise — in particular a hit ratio of
exactly 1.5 is neutral, not formal. -/
theorem formality_strict_threshold (comments : List String) (h : comments ≠ []) :
    (2 * totalHits formal_indicators comments >
        3 * totalHits casual_indicators comments →
      (analyze_writing_style comments).formality = "formal") ∧
    (2 * totalHits casual_indicators comments >
        3 * totalHits formal_indicators comments →
      (analyze_writing_style comments).formality = "casual") ∧
    (¬ 2 * totalHits formal_indicators comments >
        3 * totalHits casual_indicators comments →
     ¬ 2 * totalHits casual_indicators comments >
        3 * totalHits formal_indicators comments →
      (analyze_writing_style comments).formality = "neutral") := by
  rw [analyze_formality_eq comments h]
  refine ⟨?_, ?_, ?_⟩
  · intro hf
    rw [if_pos hf]
  · intro hc
    rw [if_neg (by omega), if_pos hc]
  · intro hf hc
    rw [if_neg hf, if_neg hc]

open AI in
/-- Witness for C6: a single formal comment classifies "formal". -/
theorem formality_strict_threshold_witness :
    (analyze_writing_style ["please"]).formality = "formal" :=
  (formality_strict_threshold ["please"] (by decide)).1 (by decide)

open AI in
/-- Counterexample to C6 as stated: with formal hits 3 and casual hits 2,
the formal count is at least (indeed exactly) 1.5 times the casual count,
yet the label is "neutral", not "formal", because the code's comparison
`formal_count > casual_count * 1.5` is strict. -/
theorem formality_at_exact_ratio_neutral :
    totalHits formal_indicators ["please thank you would", "hey yeah"] = 3 ∧
    totalHits casual_indicators ["please thank you would", "hey yeah"] = 2 ∧
    2 * 3 ≥ 3 * 2 ∧
    (analyze_writing_style ["please thank you would", "hey yeah"]).formality =
      "neutral" := by
  refine ⟨by decide, by decide, by omega, by decide⟩

open AI in
/-- C7 (corrected). For every non-empty comment list: when at least one
sentence terminator occurs, `avg_sentences` equals the mean terminator
count per comment rounded to one decimal — which can be **below** 1 — and
when no terminator occurs at all it equals 1 (not the mean 0). The
claim's floor at 1 applies in the no-terminator case, not whenever a
terminator is present. -/
theorem avg_sentences_cases (comments : List String) (h : comments ≠ []) :
    ((comments.map terminatorCount).sum > 0 →
      (analyze_writing_style comments).avg_sentences =
        round1 (((comments.map terminatorCount).sum : ℚ) / (comments.length : ℚ))) ∧
    ((comments.map terminatorCount).sum = 0 →
      (analyze_writing_style comments).avg_sentences = 1) := by
  rw [analyze_avg_sentences_eq comments h]
  constructor
  · intro hpos
    rw [if_pos hpos]
  · intro hz
    rw [if_neg (by omega)]
    norm_num [round1, roundHalfEven]

open AI in
/-- Witness for C7: one comment with one terminator. -/
theorem avg_sentences_cases_witness :
    (analyze_writing_style ["hi."]).avg_sentences =
      round1 (((["hi."].map terminatorCount).sum : ℚ) / ((["hi."] : List String).length : ℚ)) :=
  (avg_sentences_cases ["hi."] (by decide)).1 (by decide)

open AI in
/-- Counterexample to C7 as stated: with comments `["a.", "b"]` one
terminator occurs, yet `avg_sentences` is 0.5, strictly below the floor
of 1 the claim asserts. -/
theorem avg_sentences_below_one :
    ((["a.", "b"] : List String).map terminatorCount).sum = 1 ∧
    (analyze_writing_style ["a.", "b"]).avg_sentences = 1 / 2 ∧
    ((1 : ℚ) / 2 < 1) := by
  refine ⟨by decide, ?_, by norm_num⟩
  have hsum : ((["a.", "b"] : List String).map terminatorCount).sum = 1 := by decide
  have hlen : (["a.", "b"] : List String).length = 2 := rfl
  rw [analyze_avg_sentences_eq ["a.", "b"] (by decide)]
  rw [if_pos (by decide), hsum, hlen]
  norm_num [round1, roundHalfEven]

open AI in
/-- C8. `build_personalized_context` appends exactly one length
instruction: the "very brief" line exactly when `avg_length < 100`, the
"concise" line exactly when `100 ≤ avg_length < 300`, and the "detailed"
line otherwise (so `avg_length = 99` is very brief, `100` is concise, and
`300` is detailed); the three instruction lines are pairwise distinct. -/
theorem personalized_length_buckets :
    (∀ (style : UserStyleProfile) (base : String),
      build_personalized_context style base =
        base ++ ("\n\nPersonalization Guidelines:\n" ++
          ((if style.avg_length < 100 then veryBriefLine
            else if style.avg_length < 300 then conciseLine
            else detailedLine) ++ postLengthLines style))) ∧
    (∀ (style : UserStyleProfile) (base : String), style.avg_length < 100 →
      build_personalized_context style base =
        base ++ ("\n\nPersonalization Guidelines:\n" ++
          (veryBriefLine ++ postLengthLines style))) ∧
    (∀ (style : UserStyleProfile) (base : String),
      100 ≤ style.avg_length → style.avg_length < 300 →
      build_personalized_context style base =
        base ++ ("\n\nPersonalization Guidelines:\n" ++
          (conciseLine ++ postLengthLines style))) ∧
    (∀ (style : UserStyleProfile) (base : String), 300 ≤ style.avg_length →
      build_personalized_context style base =
        base ++ ("\n\nPersonalization Guidelines:\n" ++
          (detailedLine ++ postLengthLines style))) ∧
    (veryBriefLine ≠ conciseLine ∧ veryBriefLine ≠ detailedLine ∧
      conciseLine ≠ detailedLine) := by
  have hmain : ∀ (style : UserStyleProfile) (base : String),
      build_personalized_context style base =
        base ++ ("\n\nPersonalization Guidelines:\n" ++
          ((if style.avg_length < 100 then veryBriefLine
            else if style.avg_length < 300 then conciseLine
            else detailedLine) ++ postLengthLines style)) := by
    intro style base
    unfold build_personalized_context postLengthLines
    dsimp only
    simp only [String.append_assoc]
  refine ⟨hmain, ?_, ?_, ?_, by decide, by decide, by decide⟩
  · intro style base h
    rw [hmain style base, if_pos h]
  · intro style base h1 h2
    rw [hmain style base, if_neg (by omega), if_pos h2]
  · intro style base h
    rw [hmain style base, if_neg (by omega), if_neg (by omega)]

open AI in
/-- Witness for C8 at the boundary values 99, 100 and 300. -/
theorem personalized_length_buckets_witness :
    build_personalized_context ⟨99, "neutral", "neutral", false, 0⟩ "B" =
      "B" ++ ("\n\nPersonalization Guidelines:\n" ++
        (veryBriefLine ++ postLengthLines ⟨99, "neutral", "neutral", false, 0⟩)) ∧
    build_personalized_context ⟨100, "neutral", "neutral", false, 0⟩ "B" =
      "B" ++ ("\n\nPersonalization Guidelines:\n" ++
        (conciseLine ++ postLengthLines ⟨100, "neutral", "neutral", false, 0⟩)) ∧
    build_personalized_context ⟨300, "neutral", "neutral", false, 0⟩ "B" =
      "B" ++ ("\n\nPersonalization Guidelines:\n" ++
        (detailedLine ++ postLengthLines ⟨300, "neutral", "neutral", false, 0⟩)) :=
  ⟨personalized_length_buckets.2.1 ⟨99, "neutral", "neutral", false, 0⟩ "B" (by decide),
   personalized_length_buckets.2.2.1 ⟨100, "neutral", "neutral", false, 0⟩ "B"
     (by decide) (by decide),
   personalized_length_buckets.2.2.2.1 ⟨300, "neutral", "neutral", false, 0⟩ "B"
     (by decide)⟩

open WebhookHandler in
/-- C10. For an `issue_comment`/`created` event on a non-PR issue, the
webhook handler processes the **last** element of the freshly fetched
comment list of the issue — the payload's own comment object is ignored,
so any two payloads differing only in their embedded comment are handled
identically — and when the fetched list is empty it reports not handled
after only read-only calls (repository, issue, comment fetch; no
mutation, no generator call, no notification). -/
theorem webhook_uses_fetched_last_comment (isReq : String → Bool)
    (assignOk : Bool) (aiResp : Option String) (commentOk : Bool)
    (prLookup : Option PRState) (name : String) (num : Nat) (hnum : num ≠ 0)
    (issue : IssueState) (cp cp' : CommentPayload) :
    (issue.comments = [] →
      handle_issue_comment isReq assignOk aiResp commentOk true
          (some issue) prLookup ⟨"created", some name, some num, false, cp⟩ =
        (false, [.getRepo name, .getIssue num, .fetchComments num])) ∧
    (∀ last, issue.comments.getLast? = some last →
      handle_issue_comment isReq assignOk aiResp commentOk true
          (some issue) prLookup ⟨"created", some name, some num, false, cp⟩ =
        ((IssueManager.handle_comment isReq assignOk aiResp issue last).1,
          [.getRepo name, .getIssue num, .fetchComments num] ++
            (IssueManager.handle_comment isReq assignOk aiResp issue last).2)) ∧
    handle_issue_comment isReq assignOk aiResp commentOk true
        (some issue) prLookup ⟨"created", some name, some num, false, cp⟩ =
      handle_issue_comment isReq assignOk aiResp commentOk true
        (some issue) prLookup ⟨"created", some name, some num, false, cp'⟩ := by
  have hred : ∀ cpx : CommentPayload,
      handle_issue_comment isReq assignOk aiResp commentOk true
          (some issue) prLookup ⟨"created", some name, some num, false, cpx⟩ =
        (match issue.comments.getLast? with
         | none => (false, [.getRepo name, .getIssue num, .fetchComments num])
         | some newComment =>
           ((IssueManager.handle_comment isReq assignOk aiResp issue newComment).1,
             [.getRepo name, .getIssue num, .fetchComments num] ++
               (IssueManager.handle_comment isReq assignOk aiResp issue newComment).2)) := by
    intro cpx
    unfold handle_issue_comment
    simp [hnum]
  refine ⟨?_, ?_, ?_⟩
  · intro hempty
    rw [hred cp, hempty]
    rfl
  · intro last hlast
    rw [hred cp, hlast]
  · rw [hred cp, hred cp']

open WebhookHandler in
/-- Witness for C10: a one-comment issue; the handler processes the
fetched comment ("alice"), not the payload's comment object. -/
theorem webhook_uses_fetched_last_comment_witness :
    handle_issue_comment (fun _ => false) true (some "hi") true true
        (some ⟨1, "t", [], [⟨"alice", "hello", 5⟩]⟩) none
        ⟨"created", some "o/r", some 1, false, ⟨"ignored", "payload-user", 9⟩⟩ =
      ((IssueManager.handle_comment (fun _ => false) true (some "hi")
          ⟨1, "t", [], [⟨"alice", "hello", 5⟩]⟩ ⟨"alice", "hello", 5⟩).1,
        [.getRepo "o/r", .getIssue 1, .fetchComments 1] ++
          (IssueManager.handle_comment (fun _ => false) true (some "hi")
            ⟨1, "t", [], [⟨"alice", "hello", 5⟩]⟩ ⟨"alice", "hello", 5⟩).2) :=
  (webhook_uses_fetched_last_comment (fun _ => false) true (some "hi") true none
      "o/r" 1 (by decide) ⟨1, "t", [], [⟨"alice", "hello", 5⟩]⟩
      ⟨"ignored", "payload-user", 9⟩ ⟨"x", "y", 0⟩).2.1
    ⟨"alice", "hello", 5⟩ (by decide)

open IssueManager in
/-- C3. On an unassigned issue with at least one matching request (all
authors having non-empty logins, as every GitHub login does), when the
assign call fails `handle_assignment_requests` returns not handled, and
its trace consists of read-only comment fetches followed by the single
failed assign call: no confirmation comment, no decline comment, and no
owner notification is ever attempted. -/
theorem failed_assign_aborts (isReq : String → Bool) (issue : IssueState)
    (h1 : issue.assignees = [])
    (h2 : ∃ c ∈ issue.comments, isReq c.body = true)
    (h3 : ∀ c ∈ issue.comments, c.login ≠ "") :
    ∃ w effsR,
      handle_assignment_requests isReq false issue =
        (false, effsR ++ [Effect.assign issue.number w]) ∧
      ∀ e ∈ effsR, e = Effect.fetchComments issue.number := by
  have hreqs_ne :
      (issue.comments.filter (fun c => isReq c.body)).map (fun c => (c.login, c)) ≠ [] := by
    obtain ⟨c, hc, hcr⟩ := h2
    simp only [ne_eq, List.map_eq_nil_iff, List.filter_eq_nil_iff, not_forall]
    exact ⟨c, hc, by simp [hcr]⟩
  obtain ⟨m, hsel, hmem, hmin, hana⟩ := analyze_eq_some issue hreqs_ne
  have hm1 : m.1 ≠ "" := by
    obtain ⟨r, hr, hmr⟩ := candidate_scores_keys hmem
    rcases List.mem_map.mp hr with ⟨c2, hc2, rfl⟩
    rw [hmr]
    exact h3 c2 (List.mem_filter.mp hc2).1
  refine ⟨m.1,
    [Effect.fetchComments issue.number] ++
      ((issue.comments.filter (fun c => isReq c.body)).map (fun c => (c.login, c))).map
        (fun _ => Effect.fetchComments issue.number), ?_, ?_⟩
  · unfold handle_assignment_requests
    rw [if_neg (by simp [h1])]
    rw [if_neg (by simpa using hreqs_ne)]
    rw [hana]
    dsimp only
    rw [if_neg (by simpa using hm1)]
    rfl
  · intro e he
    rcases List.mem_append.mp he with h4 | h4
    · exact List.mem_singleton.mp h4
    · rcases List.mem_map.mp h4 with ⟨a, _, rfl⟩
      rfl

open IssueManager in
/-- Witness for C3: one matching comment, failing assign. -/
theorem failed_assign_aborts_witness :
    ∃ w effsR,
      handle_assignment_requests (fun b => b == "assign me") false
        ⟨9, "t", [], [⟨"alice", "assign me", 3⟩]⟩ =
        (false, effsR ++ [Effect.assign 9 w]) ∧
      ∀ e ∈ effsR, e = Effect.fetchComments 9 :=
  failed_assign_aborts (fun b => b == "assign me")
    ⟨9, "t", [], [⟨"alice", "assign me", 3⟩]⟩ rfl
    ⟨⟨"alice", "assign me", 3⟩, by decide, by decide⟩ (by decide)

end GitHubManager
